import Mathlib

/-!
Shallow embedding of the instrument-communication core of the
hardware-measurement program, together with theorems settling the frozen
claims about its specification.

Conventions of the embedding:
* machine bytes are `Nat` values (`% 256` / `% 65536` appear exactly where the
  source truncates);
* the HID byte stream consumed by the frame decoder is the concatenation of
  the `x[1..]` slices of the 64-byte reports the source reads (the source
  discards byte 0 of every report before feeding the state machine);
* fallible operations return `Except AppError` / `Option`;
* device I/O is made explicit: a driver run is a function of the command
  tokens and of the response data the device would deliver, and it returns
  the trace of write/read events next to its result.
-/

/-- Error taxonomy of the program (`src/error.rs`, enum `ApplicationError`):
Usb, Hid, Command and General, each carrying a message. -/
inductive AppError where
  | usb (msg : String)
  | hid (msg : String)
  | command (msg : String)
  | general (msg : String)
deriving DecidableEq, Repr

/-- Result of one invocation of the HID frame decoder
(`Unit161dHid::read_response`, `src/instruments/communication/unit161d.rs`):
either a decoded frame body, a hard `HidError`, a Rust panic (out-of-bounds
index, reachable only for length bytes 0 and 1), or an exhausted input stream
(the real function would keep blocking on `read`). -/
inductive ReadResult where
  | ok (payload : List Nat)
  | err (msg : String)
  | panicked
  | incomplete
deriving DecidableEq, Repr

/-- Mutable locals of `read_response`: `state` (0 = AwaitSync1, 1 = AwaitSync2,
2 = AwaitLength, 3 = AwaitPayload), the allocated buffer length `len`
(`buf = vec![0u8; b]`), the bytes written into the buffer so far (`filled`,
whose length is the source's `index`), and the running `sum : u32`. -/
structure DecSt where
  st : Nat
  len : Nat
  filled : List Nat
  sum : Nat
deriving DecidableEq, Repr

/-- Initial decoder state: `state = 0`, empty buffer, `sum = 0`. -/
def initDecSt : DecSt := ⟨0, 0, [], 0⟩

/-- The source's per-byte accumulation
`if state < 3 || index + 2 < buf.len() { sum += b as u32 }`. -/
def sumStep (s : DecSt) (b : Nat) : Nat :=
  if s.st < 3 ∨ s.filled.length + 2 < s.len then s.sum + b else s.sum

/-- One byte of the `read_response` state machine
(`src/instruments/communication/unit161d.rs`, lines 95-142): `inl` continues
with the next state, `inr` terminates the call. -/
def readStep (s : DecSt) (b : Nat) : DecSt ⊕ ReadResult :=
  let sum' := sumStep s b
  if s.st = 0 then
    if b = 0xAB then .inl { s with st := 1, sum := sum' }
    else .inl { s with sum := sum' }
  else if s.st = 1 then
    if b = 0xCD then .inl { s with st := 2, sum := sum' }
    else .inr (.err "Unexpected byte in state 1")
  else if s.st = 2 then
    .inl { st := 3, len := b, filled := [], sum := sum' }
  else if s.st = 3 then
    if s.len ≤ s.filled.length then .inr .panicked
    else
      let filled' := s.filled ++ [b]
      if filled'.length = s.len then
        if 2 ≤ s.len then
          let received := 256 * filled'.getD (s.len - 2) 0 + filled'.getD (s.len - 1) 0
          if sum' = received then .inr (.ok (filled'.take (s.len - 2)))
          else .inr (.err "Checksum mismatch")
        else .inr .panicked
      else .inl { s with filled := filled', sum := sum' }
  else .inr (.err "Unexpected byte in unknown state")

/-- Runs the state machine over a list of delivered bytes. -/
def readLoop : DecSt → List Nat → ReadResult
  | _, [] => .incomplete
  | s, b :: rest =>
    match readStep s b with
    | .inl s' => readLoop s' rest
    | .inr r => r

/-- `Unit161dHid::read_response` as a function of the delivered byte stream
(all report bytes after the discarded reserved byte of each 64-byte report). -/
def read_response (bs : List Nat) : ReadResult := readLoop initDecSt bs

example : read_response [0xAB, 0xCD, 2, 1, 122] = .ok [] := by decide

example : read_response [1, 0xAB, 0xCD, 2, 1, 122] = .err "Checksum mismatch" := by decide

example : read_response [0xAB, 0xCD, 4, 7, 8, 1, 139] = .ok [7, 8] := by decide

/-- The binary opcode dialect of the multimeter
(`src/instruments/command/unit161d.rs`, enum `Uni161dCommand` with its
discriminant values). -/
inductive Uni161dCommand where
  | measure
  | minMax
  | notMinMax
  | range
  | auto
  | rel
  | select2
  | hold
  | lamp
  | select1
  | pMinMax
  | notPeak
deriving DecidableEq, Repr

/-- Discriminant of each opcode (the `as u16` value of the Rust enum). -/
def Uni161dCommand.val : Uni161dCommand → Nat
  | .measure => 94
  | .minMax => 65
  | .notMinMax => 66
  | .range => 70
  | .auto => 71
  | .rel => 72
  | .select2 => 73
  | .hold => 74
  | .lamp => 75
  | .select1 => 76
  | .pMinMax => 77
  | .notPeak => 78

/-- `TryFrom<String> for Uni161dCommand`: the closed token-name match; any
other token is a `CommandError`. -/
def Uni161dCommand.tryFrom (value : String) : Except AppError Uni161dCommand :=
  match value with
  | "Measure" => .ok .measure
  | "MinMax" => .ok .minMax
  | "NotMinMax" => .ok .notMinMax
  | "Range" => .ok .range
  | "Auto" => .ok .auto
  | "Rel" => .ok .rel
  | "Select2" => .ok .select2
  | "Hold" => .ok .hold
  | "Lamp" => .ok .lamp
  | "Select1" => .ok .select1
  | "PMinMax" => .ok .pMinMax
  | "NotPeak" => .ok .notPeak
  | _ => .error (.command ("Unknown command: " ++ value))

/-- `SEQUENCE_SEND_CMD`: the sync bytes prepended to each command body. -/
def SEQUENCE_SEND_CMD : List Nat := [0xAB, 0xCD, 0x03]

/-- The 3-byte command body built in `Unit161dHid::command`
(lines 156-161): `cmd_bytes[0] = cmd & 0xff`, then `cmd += 379` on the u16
value, `cmd_bytes[1] = cmd >> 8`, `cmd_bytes[2] = cmd & 0xff`. -/
def uni161dCmdBytes (cmd : Nat) : List Nat :=
  [cmd % 256, (((cmd + 379) % 65536) / 256) % 256, ((cmd + 379) % 65536) % 256]

/-- The 6-byte frame payload written per token: sync sequence plus body. -/
def uni161dFrame (cmd : Nat) : List Nat := SEQUENCE_SEND_CMD ++ uni161dCmdBytes cmd

/-- `Unit161dHid::write_with_length`: the transport write prepends a one-byte
length prefix (`buf[0] = len as u8`). -/
def write_with_length (data : List Nat) : List Nat := (data.length % 256) :: data

example : write_with_length (uni161dFrame 94) = [6, 0xAB, 0xCD, 0x03, 94, 1, 217] := by decide

example : write_with_length (uni161dFrame 65) = [6, 0xAB, 0xCD, 0x03, 65, 1, 188] := by decide

/-- Continuation byte test for UTF-8 decoding (`0x80..=0xBF`). -/
def utf8Cont (b : Nat) : Prop := 0x80 ≤ b ∧ b ≤ 0xBF

instance (b : Nat) : Decidable (utf8Cont b) := by unfold utf8Cont; infer_instance

/-- The Unicode replacement character emitted by lossy UTF-8 decoding. -/
def replChar : Char := '�'

/-- Rust's `String::from_utf8_lossy` on a byte list: well-formed sequences
decode to their scalar value, each maximal subpart of an ill-formed
subsequence becomes one U+FFFD (the substitution policy Rust documents). -/
def utf8Lossy : List Nat → List Char
  | [] => []
  | b :: rest =>
    if b < 0x80 then Char.ofNat b :: utf8Lossy rest
    else if b < 0xC2 then replChar :: utf8Lossy rest
    else if b ≤ 0xDF then
      match rest with
      | [] => [replChar]
      | c :: r =>
        if utf8Cont c then Char.ofNat ((b - 0xC0) * 64 + (c - 0x80)) :: utf8Lossy r
        else replChar :: utf8Lossy (c :: r)
    else if b ≤ 0xEF then
      match rest with
      | [] => [replChar]
      | c :: r =>
        if (if b = 0xE0 then 0xA0 else 0x80) ≤ c ∧ c ≤ (if b = 0xED then 0x9F else 0xBF) then
          match r with
          | [] => [replChar]
          | d :: r2 =>
            if utf8Cont d then
              Char.ofNat ((b - 0xE0) * 4096 + (c - 0x80) * 64 + (d - 0x80)) :: utf8Lossy r2
            else replChar :: utf8Lossy (d :: r2)
        else replChar :: utf8Lossy (c :: r)
    else if b ≤ 0xF4 then
      match rest with
      | [] => [replChar]
      | c :: r =>
        if (if b = 0xF0 then 0x90 else 0x80) ≤ c ∧ c ≤ (if b = 0xF4 then 0x8F else 0xBF) then
          match r with
          | [] => [replChar]
          | d :: r2 =>
            if utf8Cont d then
              match r2 with
              | [] => [replChar]
              | e :: r3 =>
                if utf8Cont e then
                  Char.ofNat ((b - 0xF0) * 262144 + (c - 0x80) * 4096 +
                    (d - 0x80) * 64 + (e - 0x80)) :: utf8Lossy r3
                else replChar :: utf8Lossy (e :: r3)
            else replChar :: utf8Lossy (d :: r2)
        else replChar :: utf8Lossy (c :: r)
    else replChar :: utf8Lossy rest

/-- Rust's `char::is_whitespace` (the Unicode White_Space property). -/
def rustIsWhitespace (c : Char) : Prop :=
  c = ' ' ∨ c = '\t' ∨ c = '\n' ∨ c = '\x0B' ∨ c = '\x0C' ∨ c = '\r' ∨
  c = '\x85' ∨ c = '\xA0' ∨ c = ' ' ∨
  (0x2000 ≤ c.toNat ∧ c.toNat ≤ 0x200A) ∨
  c = ' ' ∨ c = ' ' ∨ c = ' ' ∨ c = ' ' ∨ c = '　'

instance (c : Char) : Decidable (rustIsWhitespace c) := by
  unfold rustIsWhitespace; infer_instance

/-- Rust's `str::trim`: strip leading and trailing whitespace characters. -/
def rustTrim (s : List Char) : List Char :=
  ((s.dropWhile (fun c => decide (rustIsWhitespace c))).reverse.dropWhile
    (fun c => decide (rustIsWhitespace c))).reverse

example : rustTrim " .OL  ".data = ".OL".data := by decide

/-- The 31-entry mode-name table of `src/instruments/reading/unit161d.rs`. -/
def MODE : List String :=
  ["ACV", "ACmV", "DCV", "DCmV", "Hz", "%", "OHM", "CONT", "DIDOE", "CAP", "°C", "°F",
   "DCuA", "ACuA", "DCmA", "ACmA", "DCA", "ACA", "HFE", "Live", "NCV", "LozV", "ACA",
   "DCA", "LPF", "AC/DC", "LPF", "AC+DC", "LPF", "AC+DC2", "INRUSH"]

/-- Display strings that mean overload. -/
def OVERLOAD : List String := [".OL", "O.L", "OL.", "OL", "-.OL", "-O.L", "-OL.", "-OL"]

/-- Display strings that mean non-contact voltage detected. -/
def NCV : List String := ["EF", "-", "--", "---", "----", "-----"]

/-- The (mode, range) to unit lookup of `get_unit`; `none` for an unlisted
pair (the caller substitutes "Unknown"). -/
def get_unit (mode : String) (range : String) : Option String :=
  match mode, range with
  | "%", "0" => some "%"
  | "AC+DC", "1" => some "A"
  | "AC+DC2", "1" => some "A"
  | "AC/DC", "0" => some "V"
  | "AC/DC", "1" => some "V"
  | "AC/DC", "2" => some "V"
  | "AC/DC", "3" => some "V"
  | "ACA", "1" => some "A"
  | "ACV", "0" => some "V"
  | "ACV", "1" => some "V"
  | "ACV", "2" => some "V"
  | "ACV", "3" => some "V"
  | "ACmA", "0" => some "mA"
  | "ACmA", "1" => some "mA"
  | "ACmV", "0" => some "mV"
  | "ACuA", "0" => some "uA"
  | "ACuA", "1" => some "uA"
  | "CAP", "0" => some "nF"
  | "CAP", "1" => some "nF"
  | "CAP", "2" => some "uF"
  | "CAP", "3" => some "uF"
  | "CAP", "4" => some "uF"
  | "CAP", "5" => some "mF"
  | "CAP", "6" => some "mF"
  | "CAP", "7" => some "mF"
  | "CONT", "0" => some "Ω"
  | "DCA", "1" => some "A"
  | "DCV", "0" => some "V"
  | "DCV", "1" => some "V"
  | "DCV", "2" => some "V"
  | "DCV", "3" => some "V"
  | "DCmA", "0" => some "mA"
  | "DCmA", "1" => some "mA"
  | "DCmV", "0" => some "mV"
  | "DCuA", "0" => some "uA"
  | "DCuA", "1" => some "uA"
  | "DIDOE", "0" => some "V"
  | "Hz", "0" => some "Hz"
  | "Hz", "1" => some "Hz"
  | "Hz", "2" => some "kHz"
  | "Hz", "3" => some "kHz"
  | "Hz", "4" => some "kHz"
  | "Hz", "5" => some "MHz"
  | "Hz", "6" => some "MHz"
  | "Hz", "7" => some "MHz"
  | "LPF", "0" => some "V"
  | "LPF", "1" => some "V"
  | "LPF", "2" => some "V"
  | "LPF", "3" => some "V"
  | "LozV", "0" => some "V"
  | "LozV", "1" => some "V"
  | "LozV", "2" => some "V"
  | "LozV", "3" => some "V"
  | "OHM", "0" => some "Ω"
  | "OHM", "1" => some "kΩ"
  | "OHM", "2" => some "kΩ"
  | "OHM", "3" => some "kΩ"
  | "OHM", "4" => some "MΩ"
  | "OHM", "5" => some "MΩ"
  | "OHM", "6" => some "MΩ"
  | "°C", "0" => some "°C"
  | "°C", "1" => some "°C"
  | "°F", "0" => some "°F"
  | "°F", "1" => some "°F"
  | "HFE", "0" => some "B"
  | "NCV", "0" => some "NCV"
  | _, _ => none

/-- The structured multimeter reading (`Unit161dReading`,
`src/instruments/reading/unit161d.rs`). The numeric type of `decimal_value`
is a parameter `α` because the source stores an `f64`; every claim about the
decoder is independent of the parsed numeric value. -/
structure Unit161dReading (α : Type) where
  original_bytes : List Nat
  mode : String
  range : String
  display_value : String
  overload : Bool
  ncv : Bool
  decimal_value : Option α
  display_unit : String
  progres : Nat
  max : Bool
  min : Bool
  hold : Bool
  rel : Bool
  auto : Bool
  battery : Bool
  hwwarning : Bool
  dc : Bool
  peak_max : Bool
  peak_min : Bool
  bar_polarity : Bool
deriving DecidableEq, Repr

/-- `Unit161dReading::parse` (lines 174-228), parameterized by the
`display_value.parse::<f64>().ok()` step (`parseNum`): fewer than 14 bytes is
no reading; otherwise the mode table lookup, lossy-UTF-8 range and display
extraction with trim, the overload / NCV sentinel checks (which suppress the
numeric value), the unit lookup, the two-digit progress value and the three
flag bytes. -/
def Unit161dReading.parse {α : Type} (parseNum : String → Option α)
    (bytes : List Nat) : Option (Unit161dReading α) :=
  if bytes.length < 14 then none
  else
    let mode := (MODE.get? (bytes.getD 0 0)).getD "Unknown"
    let range := String.mk (utf8Lossy ((bytes.drop 1).take 1))
    let display_value := String.mk (rustTrim (utf8Lossy ((bytes.drop 2).take 7)))
    let overload := OVERLOAD.contains display_value
    let ncv := NCV.contains display_value
    let decimal_value := if overload || ncv then none else parseNum display_value
    let display_unit := (get_unit mode range).getD "Unknown"
    let progres := bytes.getD 9 0 * 10 + bytes.getD 10 0
    some
      { original_bytes := bytes
        mode := mode
        range := range
        display_value := display_value
        overload := overload
        ncv := ncv
        decimal_value := decimal_value
        display_unit := display_unit
        progres := progres
        max := decide (0 < Nat.land (bytes.getD 11 0) 8)
        min := decide (0 < Nat.land (bytes.getD 11 0) 4)
        hold := decide (0 < Nat.land (bytes.getD 11 0) 2)
        rel := decide (0 < Nat.land (bytes.getD 11 0) 1)
        auto := decide (0 < Nat.land (bytes.getD 12 0) 4)
        battery := decide (0 < Nat.land (bytes.getD 12 0) 2)
        hwwarning := decide (0 < Nat.land (bytes.getD 12 0) 1)
        dc := decide (0 < Nat.land (bytes.getD 13 0) 8)
        peak_max := decide (0 < Nat.land (bytes.getD 13 0) 4)
        peak_min := decide (0 < Nat.land (bytes.getD 13 0) 2)
        bar_polarity := decide (0 < Nat.land (bytes.getD 13 0) 1) }

example :
    (Unit161dReading.parse (fun _ => (none : Option Unit))
      [2, 0, 49, 50, 51, 46, 52, 53, 54, 5, 0, 14, 7, 15]).map
        (fun r => (r.mode, r.display_value, r.progres, r.max, r.rel)) =
      some ("DCV", "123.456", 50, true, false) := by decide

/-- Observable transport actions of the HID driver: a device write (the exact
bytes handed to `hiddevice.write`) and a blocking `read_response` invocation. -/
inductive HidEvent where
  | write (bytes : List Nat)
  | readAttempt
deriving DecidableEq, Repr

/-- Result of a whole HID command batch: the value `Unit161dHid::command`
returns (`done`), an `ApplicationError` (`failed`), or an eternally blocking
read (`blocked`, when the device stops delivering bytes mid-frame — the
source has no timeout). -/
inductive HidOutcome (α : Type) where
  | done (ret : Option (List (Unit161dReading α)))
  | failed (e : AppError)
  | blocked
deriving DecidableEq, Repr

/-- The token loop of `Unit161dHid::command` (lines 150-173). The device is
modelled by `resps`: the byte stream each successive `read_response` call
consumes (bytes left over inside a 64-byte report when a frame completes are
discarded by the source, so the streams of distinct calls are independent).
For every token the loop parses it (a `CommandError` aborts the batch),
writes the length-prefixed frame, and unconditionally performs a blocking
read; a decoded frame that yields a reading is appended. The batch always
returns `Some` of the collected readings. -/
def hidCommandGo {α : Type} (parseNum : String → Option α) :
    List String → List (List Nat) → List (Unit161dReading α) →
      List HidEvent × HidOutcome α
  | [], _, acc => ([], .done (some acc))
  | t :: ts, resps, acc =>
    match Uni161dCommand.tryFrom t with
    | .error e => ([], .failed e)
    | .ok c =>
      let ev1 := HidEvent.write (write_with_length (uni161dFrame c.val))
      match resps with
      | [] => ([ev1, .readAttempt], .blocked)
      | r :: rs =>
        match read_response r with
        | .ok payload =>
          let acc' := match Unit161dReading.parse parseNum payload with
                      | some m => acc ++ [m]
                      | none => acc
          let rec_result := hidCommandGo parseNum ts rs acc'
          (ev1 :: .readAttempt :: rec_result.1, rec_result.2)
        | .err msg => ([ev1, .readAttempt], .failed (.hid msg))
        | .panicked => ([ev1, .readAttempt], .failed (.general "index out of bounds"))
        | .incomplete => ([ev1, .readAttempt], .blocked)

/-- `Unit161dHid::command` as a function of the tokens and the per-read
response streams, returning the event trace next to the outcome. -/
def hidCommand {α : Type} (parseNum : String → Option α) (tokens : List String)
    (resps : List (List Nat)) : List HidEvent × HidOutcome α :=
  hidCommandGo parseNum tokens resps []

example :
    hidCommand (fun _ => (none : Option Unit)) ["MinMax"] [[0xAB, 0xCD, 2, 1, 122]] =
      ([HidEvent.write [6, 0xAB, 0xCD, 0x03, 65, 1, 188], HidEvent.readAttempt],
        HidOutcome.done (some [])) := by decide

/-- Rust's char-pattern `str::ends_with(c)`: true iff the last character is
`c`. -/
def strEndsWithChar (s : String) (c : Char) : Bool := s.data.getLast? = some c

/-- Rust's char-pattern `str::contains(c)`: true iff some character is `c`. -/
def strContainsChar (s : String) (c : Char) : Bool := s.data.contains c

/-- The per-token encoding inside `ScpiUsb::command`
(`src/instruments/communication/scpiusb.rs`, lines 124-130): the bytes sent
are the token itself when it already ends with a newline, otherwise the token
with one newline pushed. -/
def scpiUsbEncode (command : String) : String :=
  if strEndsWithChar command '\n' then command else command ++ "\n"

/-- The query test inside `ScpiUsb::command` (line 147):
`command.contains('?')`. -/
def scpiUsbIsQuery (command : String) : Bool := strContainsChar command '?'

/-- `ScpiRawCommand::to_command` (`src/instruments/command/scpiraw.rs`,
lines 33-37): clones the token and pushes a newline unconditionally. -/
def scpiRawToCommand (command : String) : String := command ++ "\n"

/-- `ScpiRawCommand::is_query` (lines 45-47): `command.ends_with('?')`. -/
def scpiRawIsQuery (command : String) : Bool := strEndsWithChar command '?'

/-- Observable transport actions of the USB bulk driver: an OUT-endpoint
write of the encoded token and an IN-endpoint read delivering `data` (which
`ScpiUsb::command` wraps into a `ScpiRawReading` holding exactly `data`). -/
inductive ScpiEvent where
  | write (payload : String)
  | readData (data : List Nat)
deriving DecidableEq, Repr

/-- Result of a `ScpiUsb::command` batch: the returned optional reading list
(readings are the raw `data` byte lists), or a forever-pending read when the
device delivers nothing (`blocked`). -/
inductive ScpiOutcome where
  | ok (ret : Option (List (List Nat)))
  | blocked
deriving DecidableEq, Repr

/-- The token loop of `ScpiUsb::command` (lines 122-176) with all bulk
transfers succeeding: write the encoded token, read one buffer only when the
token contains a question mark, collect the read data, and finally return
`None` exactly when the collected list is empty. -/
def scpiCommandGo : List String → List (List Nat) → List (List Nat) →
    List ScpiEvent × ScpiOutcome
  | [], _, acc => ([], .ok (if acc = [] then none else some acc))
  | t :: ts, resps, acc =>
    let ev1 := ScpiEvent.write (scpiUsbEncode t)
    if scpiUsbIsQuery t then
      match resps with
      | [] => ([ev1], .blocked)
      | r :: rs =>
        let rest := scpiCommandGo ts rs (acc ++ [r])
        (ev1 :: .readData r :: rest.1, rest.2)
    else
      let rest := scpiCommandGo ts resps acc
      (ev1 :: rest.1, rest.2)

/-- `ScpiUsb::command` as a function of the tokens and the successive
IN-endpoint buffers, returning the event trace next to the outcome. -/
def scpiCommand (tokens : List String) (resps : List (List Nat)) :
    List ScpiEvent × ScpiOutcome :=
  scpiCommandGo tokens resps []

example :
    scpiCommand ["*RST", "MEAS?"] [[65, 66]] =
      ([ScpiEvent.write "*RST\n", ScpiEvent.write "MEAS?\n", ScpiEvent.readData [65, 66]],
        ScpiOutcome.ok (some [[65, 66]])) := by decide

example : scpiCommand ["*RST\n"] [] = ([ScpiEvent.write "*RST\n"], ScpiOutcome.ok none) := by
  decide

deriving instance DecidableEq for Except

/-- Rust's `str::split(c)`: the pieces between occurrences of `c`, keeping
empty pieces; an empty input yields one empty piece. -/
def splitChar (s : List Char) (c : Char) : List (List Char) :=
  match s with
  | [] => [[]]
  | a :: rest =>
    if a = c then [] :: splitChar rest c
    else
      match splitChar rest c with
      | [] => [[a]]
      | g :: gs => (a :: g) :: gs

example : splitChar "Sin, 10kHz,,".data ',' = ["Sin".data, " 10kHz".data, [], []] := by decide

/-- The 16 supported waveforms of the Peaktech 4055MV
(`src/instruments/peaktech4055mv/instrumentation.rs`, enum `Waveform`). -/
inductive Waveform where
  | sin
  | squ
  | ramp
  | noise
  | pPulse
  | nPulse
  | stair
  | hSine
  | lSine
  | rexp
  | rLog
  | tang
  | sinc
  | round
  | card
  | quake
deriving DecidableEq, Repr

/-- The `{:?}` (Debug) rendering of a waveform: the variant name. -/
def Waveform.name : Waveform → String
  | .sin => "Sin"
  | .squ => "Squ"
  | .ramp => "Ramp"
  | .noise => "Noise"
  | .pPulse => "PPulse"
  | .nPulse => "NPulse"
  | .stair => "Stair"
  | .hSine => "HSine"
  | .lSine => "LSine"
  | .rexp => "Rexp"
  | .rLog => "RLog"
  | .tang => "Tang"
  | .sinc => "Sinc"
  | .round => "Round"
  | .card => "Card"
  | .quake => "Quake"

/-- The waveform-name match of `Peaktech4055mvCommandApply::parse`
(lines 169-192); `none` stands for the `_` arm that raises the unknown
waveform `CommandError`. -/
def waveformOfName : String → Option Waveform
  | "Sin" => some .sin
  | "Squ" => some .squ
  | "Ramp" => some .ramp
  | "Noise" => some .noise
  | "PPulse" => some .pPulse
  | "NPulse" => some .nPulse
  | "Stair" => some .stair
  | "HSine" => some .hSine
  | "LSine" => some .lSine
  | "Rexp" => some .rexp
  | "RLog" => some .rLog
  | "Tang" => some .tang
  | "Sinc" => some .sinc
  | "Round" => some .round
  | "Card" => some .card
  | "Quake" => some .quake
  | _ => none

/-- The comma-separated pieces of the text after the `Apply:` prefix:
`cmd["Apply:".len()..].split(',')` (the caller guarantees the ASCII prefix,
so the byte slice is the character drop). -/
def applyParts (cmd : String) : List (List Char) := splitChar (cmd.data.drop 6) ','

/-- `parts[0].split(' ').next().unwrap_or("").trim()`: the waveform name. -/
def applyWaveName (cmd : String) : List Char :=
  rustTrim ((splitChar ((applyParts cmd).headD []) ' ').headD [])

/-- `parts.first().and_then(|s| s.split(' ').nth(1)).map(trim)`: the optional
frequency field. -/
def applyFrequency (cmd : String) : Option String :=
  ((splitChar ((applyParts cmd).headD []) ' ').get? 1).map
    (fun s => String.mk (rustTrim s))

/-- `parts.len().checked_sub(2).map(|_| parts[1].trim())`: the optional
amplitude field, present exactly when there are at least two pieces. -/
def applyAmplitude (cmd : String) : Option String :=
  if 2 ≤ (applyParts cmd).length then some (String.mk (rustTrim ((applyParts cmd).getD 1 [])))
  else none

/-- `parts.len().checked_sub(3).map(|_| parts[2].trim())`: the optional
offset field, present exactly when there are at least three pieces. -/
def applyOffset (cmd : String) : Option String :=
  if 3 ≤ (applyParts cmd).length then some (String.mk (rustTrim ((applyParts cmd).getD 2 [])))
  else none

/-- The parsed `Apply` command (struct `Peaktech4055mvCommandApply`). -/
structure ApplyCmd where
  waveform : Waveform
  frequency : Option String
  amplitude : Option String
  offset : Option String
deriving DecidableEq, Repr

/-- `Peaktech4055mvCommandApply::parse` (lines 166-232) with the source's
check order: unknown waveform, then too many comma pieces, then the (dead)
empty-name check, then amplitude without frequency, then offset without
amplitude. -/
def parseApply (cmd : String) : Except AppError ApplyCmd :=
  let waveform_str := applyWaveName cmd
  match waveformOfName (String.mk waveform_str) with
  | none => .error (.command ("Unknown waveform: " ++ String.mk waveform_str))
  | some w =>
    if 3 < (applyParts cmd).length then
      .error (.command "Too many parameters for Apply command")
    else if waveform_str = [] then
      .error (.command "Waveform type is required for Apply command")
    else if (applyAmplitude cmd).isSome && (applyFrequency cmd).isNone then
      .error (.command "Frequency cannot be empty if provided")
    else if (applyOffset cmd).isSome && (applyAmplitude cmd).isNone then
      .error (.command "Amplitude cannot be empty if provided")
    else .ok ⟨w, applyFrequency cmd, applyAmplitude cmd, applyOffset cmd⟩

/-- `str::replace("Raw:", "")`: delete every non-overlapping leftmost
occurrence of the four characters `Raw:`. -/
def removeRawAll : List Char → List Char
  | [] => []
  | 'R' :: 'a' :: 'w' :: ':' :: rest => removeRawAll rest
  | c :: rest => c :: removeRawAll rest

/-- `Peaktech4055mvCommandRaw::parse` (lines 295-299): strip every `Raw:`
occurrence and push a newline. -/
def rawParse (cmd : String) : String := String.mk (removeRawAll cmd.data) ++ "\n"

/-- The three Peaktech 4055MV command variants (`Apply`, `Reset`, `Raw`). -/
inductive PCmd where
  | apply (a : ApplyCmd)
  | reset
  | raw (command : String)
deriving DecidableEq, Repr

/-- `Peaktech4055mvCommandApply::to_command_string` (lines 243-256): start
from `Apply:{:?}`, then push `" {freq}"`, `", {amp}"`, `", {off}"` for each
supplied optional field. -/
def applyToString (a : ApplyCmd) : String :=
  let command := "Apply:" ++ a.waveform.name
  let command := match a.frequency with
                 | some freq => command ++ (" " ++ freq)
                 | none => command
  let command := match a.amplitude with
                 | some amp => command ++ (", " ++ amp)
                 | none => command
  let command := match a.offset with
                 | some off => command ++ (", " ++ off)
                 | none => command
  command ++ "\n"

/-- `to_command_string` across the three variants (`Reset` serializes to
`*RST\n`, a raw command to its stored text). -/
def PCmd.toCommandString : PCmd → String
  | .apply a => applyToString a
  | .reset => "*RST\n"
  | .raw command => command

/-- Rust's `str::starts_with(p)` for a literal pattern: the characters of
`p` are a prefix of the string. -/
def strStartsWith (s : String) (p : String) : Bool := p.data.isPrefixOf s.data

/-- `TryFrom<String> for Box<dyn Peaktech4055mvCommand>` (lines 339-354):
dispatch on the `Apply:` prefix, the exact literal `Reset`, and the raw
fallback. -/
def peaktechTryFrom (value : String) : Except AppError PCmd :=
  if strStartsWith value "Apply:" then (parseApply value).map PCmd.apply
  else if value = "Reset" then .ok .reset
  else .ok (.raw (rawParse value))

/-- `commands.iter().map(try_into).collect::<Result<Vec<_>, _>>()`: parse
each token in order, short-circuiting at the first error. -/
def collectResults : List String → Except AppError (List PCmd)
  | [] => .ok []
  | t :: ts => do
    let c ← peaktechTryFrom t
    let cs ← collectResults ts
    pure (c :: cs)

/-- `Peaktech4055mv::command` (lines 65-108) up to its I/O trace: every token
is parsed before the USB device is opened (`collect::<Result<_, _>>()?`), so
a malformed token yields the error with no device interaction; on success the
loop submits each serialized command in order, and the function returns
`Ok(None)`. The returned list is that sequence of submitted command strings. -/
def peaktechCommand (commands : List String) : Except AppError (List String) := do
  let parsed ← collectResults commands
  pure (parsed.map PCmd.toCommandString)

example :
    (peaktechTryFrom "Apply:Sin 10kHz, 1.2, 0.5").map PCmd.toCommandString =
      .ok "Apply:Sin 10kHz, 1.2, 0.5\n" := by decide

example :
    peaktechTryFrom "Apply:Sin, 10kHz,," =
      .error (.command "Too many parameters for Apply command") := by decide

example : (peaktechTryFrom "Raw:Apply:Squ").map PCmd.toCommandString = .ok "Apply:Squ\n" := by
  decide

/-- Number of blocking-read attempts in a HID event trace. -/
def countReads (evs : List HidEvent) : Nat :=
  evs.countP (fun e => decide (e = HidEvent.readAttempt))

/-- Whether a USB bulk event is an IN-endpoint read. -/
def ScpiEvent.isRead : ScpiEvent → Bool
  | .readData _ => true
  | .write _ => false

/-- Rendering of one optional Apply field: its separator followed by the
value when supplied, nothing otherwise. -/
def optPart (sep : String) : Option String → String
  | some v => sep ++ v
  | none => ""

/-- A 14-byte response whose display field is `".OL    "` (mode 0, range
`'0'`, all flags clear). -/
def overloadBytes : List Nat := [0, 48, 46, 79, 76, 32, 32, 32, 32, 0, 0, 0, 0, 0]

/-- A 14-byte response whose display field is `"EF     "`. -/
def ncvBytes : List Nat := [0, 48, 69, 70, 32, 32, 32, 32, 32, 0, 0, 0, 0, 0]

/-- A numeric parser that never succeeds, usable wherever the claims do not
depend on the parsed value. -/
def noneNum : String → Option Unit := fun _ => none

/-- The reading decoded from `overloadBytes`. -/
def overloadReading : Unit161dReading Unit :=
  { original_bytes := overloadBytes, mode := "ACV", range := "0",
    display_value := ".OL", overload := true, ncv := false,
    decimal_value := none, display_unit := "V", progres := 0,
    max := false, min := false, hold := false, rel := false, auto := false,
    battery := false, hwwarning := false, dc := false, peak_max := false,
    peak_min := false, bar_polarity := false }

/-- The reading decoded from `ncvBytes`. -/
def ncvReading : Unit161dReading Unit :=
  { original_bytes := ncvBytes, mode := "ACV", range := "0",
    display_value := "EF", overload := false, ncv := true,
    decimal_value := none, display_unit := "V", progres := 0,
    max := false, min := false, hold := false, rel := false, auto := false,
    battery := false, hwwarning := false, dc := false, peak_max := false,
    peak_min := false, bar_polarity := false }

example : Unit161dReading.parse noneNum overloadBytes = some overloadReading := by decide

example : Unit161dReading.parse noneNum ncvBytes = some ncvReading := by decide

/-- In `AwaitPayload` with room for at least two more bytes, a byte is
appended and added to the running sum exactly when more than two slots
remain. -/
theorem readStep_fill_mid (n : Nat) (f : List Nat) (m b : Nat)
    (h : f.length + 1 < n) :
    readStep ⟨3, n, f, m⟩ b =
      Sum.inl ⟨3, n, f ++ [b], if f.length + 2 < n then m + b else m⟩ := by
  unfold readStep sumStep
  have h0 : ¬ n ≤ f.length := by omega
  have h1 : ¬ (f ++ [b]).length = n := by simp; omega
  simp [h0, h1]
  intro h4
  exact absurd h4 (by omega)

/-- In `AwaitPayload` with exactly one slot left, the byte completes the
buffer and the checksum comparison decides the call; the final byte itself is
not summed. -/
theorem readStep_fill_last (n : Nat) (f : List Nat) (m b : Nat)
    (h2 : 2 ≤ n) (h : f.length + 1 = n) :
    readStep ⟨3, n, f, m⟩ b =
      (if m = 256 * (f ++ [b]).getD (n - 2) 0 + (f ++ [b]).getD (n - 1) 0
       then Sum.inr (ReadResult.ok ((f ++ [b]).take (n - 2)))
       else Sum.inr (ReadResult.err "Checksum mismatch")) := by
  unfold readStep sumStep
  have h0 : ¬ n ≤ f.length := by omega
  have h1 : (f ++ [b]).length = n := by simp; omega
  have h3 : ¬ (3 < 3 ∨ f.length + 2 < n) := by omega
  simp [h0, h1, h2, h3]
  rw [if_neg (show ¬ f.length + 2 < n by omega)]

/-- Full characterization of the `AwaitPayload` phase: starting with `f`
bytes already buffered and running sum `m`, feeding the remaining `p` bytes
ends the call with the checksum comparison between `m` plus the summed
non-checksum remainder and the big-endian trailing pair. -/
theorem readLoop_fill (p : List Nat) : ∀ (n : Nat) (f : List Nat) (m : Nat),
    2 ≤ n → 0 < p.length → f.length + p.length = n →
    readLoop ⟨3, n, f, m⟩ p =
      if m + (p.take (n - 2 - f.length)).sum =
          256 * (f ++ p).getD (n - 2) 0 + (f ++ p).getD (n - 1) 0
      then ReadResult.ok ((f ++ p).take (n - 2))
      else ReadResult.err "Checksum mismatch" := by
  induction p with
  | nil => intro n f m _ hpos _; simp at hpos
  | cons b rest ih =>
    intro n f m h2 _ hlen
    cases rest with
    | nil =>
      have hf : f.length + 1 = n := by simpa using hlen
      have htake : n - 2 - f.length = 0 := by omega
      have hstep := readStep_fill_last n f m b h2 hf
      rw [htake]
      simp only [List.take_zero, List.sum_nil, Nat.add_zero]
      simp only [readLoop]
      by_cases hc : m = 256 * (f ++ [b]).getD (n - 2) 0 + (f ++ [b]).getD (n - 1) 0
      · rw [if_pos hc] at hstep
        rw [hstep, if_pos hc]
      · rw [if_neg hc] at hstep
        rw [hstep, if_neg hc]
    | cons c rest2 =>
      have hlen' : f.length + rest2.length + 2 = n := by
        simp [List.length_cons] at hlen
        omega
      have hmid : f.length + 1 < n := by omega
      have hlen2 : (f ++ [b]).length + (c :: rest2).length = n := by
        simp [List.length_append, List.length_cons]
        omega
      simp only [readLoop]
      rw [readStep_fill_mid n f m b hmid]
      show readLoop ⟨3, n, f ++ [b], if f.length + 2 < n then m + b else m⟩
        (c :: rest2) = _
      rw [ih n (f ++ [b]) _ h2 (by simp) hlen2]
      have hlist : (f ++ [b]) ++ c :: rest2 = f ++ b :: c :: rest2 := by simp
      have hsum : (if f.length + 2 < n then m + b else m) +
          ((c :: rest2).take (n - 2 - (f ++ [b]).length)).sum =
          m + ((b :: c :: rest2).take (n - 2 - f.length)).sum := by
        have hl : (f ++ [b]).length = f.length + 1 := by simp
        rw [hl]
        rcases Nat.lt_or_ge (f.length + 2) n with hlt | hge
        · have e1 : n - 2 - f.length = (n - 2 - (f.length + 1)) + 1 := by omega
          rw [if_pos hlt, e1, List.take_succ_cons, List.sum_cons]
          ring
        · have e1 : n - 2 - f.length = 0 := by omega
          have e2 : n - 2 - (f.length + 1) = 0 := by omega
          rw [if_neg (by omega), e1, e2]
          simp
      rw [hlist, hsum]

/-- Feeding the two sync bytes and the length byte from the initial state
reaches `AwaitPayload` with `0xAB + 0xCD + n` already accumulated in the
checksum sum. -/
theorem read_response_sync (n : Nat) (payload : List Nat) :
    read_response (0xAB :: 0xCD :: n :: payload) =
      readLoop ⟨3, n, [], 376 + n⟩ payload := by
  unfold read_response initDecSt
  simp [readLoop, readStep, sumStep]

/-- Claim C1 is false on the code: the decoder accepts this frame although
its trailing big-endian checksum (378) differs from the 16-bit-truncated sum
of the zero non-checksum payload bytes (0), because the implementation also
sums the sync and length bytes. -/
theorem claim_C1_counterexample :
    read_response [0xAB, 0xCD, 2, 1, 122] = ReadResult.ok [] ∧
    256 * 1 + 122 ≠ (List.take 0 [1, 122]).sum % 65536 := by decide

/-- Claim C1 amended: for a stream delivering `0xAB, 0xCD, n (n ≥ 2)` and
`n` payload bytes, `read_response` returns the first `n - 2` payload bytes
exactly when the trailing big-endian checksum equals `0xAB + 0xCD + n` plus
the untruncated sum of those `n - 2` bytes, and otherwise fails with the
checksum-mismatch `HidError`. -/
theorem claim_C1_amended (n : Nat) (payload : List Nat) (h2 : 2 ≤ n)
    (hlen : payload.length = n) :
    read_response (0xAB :: 0xCD :: n :: payload) =
      if 0xAB + 0xCD + n + (payload.take (n - 2)).sum =
          256 * payload.getD (n - 2) 0 + payload.getD (n - 1) 0
      then ReadResult.ok (payload.take (n - 2))
      else ReadResult.err "Checksum mismatch" := by
  rw [read_response_sync]
  rw [readLoop_fill payload n [] (376 + n) h2 (by omega) (by simpa using hlen)]
  simp only [List.nil_append, List.length_nil, Nat.sub_zero]

/-- Witness for the amended claim C1 at the accepted 2-byte frame. -/
theorem claim_C1_witness :
    read_response (0xAB :: 0xCD :: 2 :: [1, 122]) =
      if 0xAB + 0xCD + 2 + (List.take (2 - 2) [1, 122]).sum =
          256 * List.getD [1, 122] (2 - 2) 0 + List.getD [1, 122] (2 - 1) 0
      then ReadResult.ok (List.take (2 - 2) [1, 122])
      else ReadResult.err "Checksum mismatch" :=
  claim_C1_amended 2 [1, 122] (by decide) (by decide)

/-- Claim C5 is false on the code: this frame is accepted on its own, yet a
single garbage byte `0x01` in front of it changes the running checksum and
the same frame is rejected. -/
theorem claim_C5_counterexample :
    read_response [0xAB, 0xCD, 2, 1, 122] = ReadResult.ok [] ∧
    read_response (1 :: [0xAB, 0xCD, 2, 1, 122]) = ReadResult.err "Checksum mismatch" := by
  decide

/-- Leading zero bytes (and only garbage of byte-sum zero) are invisible to
the decoder. -/
theorem read_response_zero_prefix (g s : List Nat) (hg : ∀ b ∈ g, b = 0) :
    read_response (g ++ s) = read_response s := by
  induction g with
  | nil => simp
  | cons b g' ih =>
    have hb : b = 0 := hg b (List.mem_cons_self b g')
    subst hb
    have hstep : readStep initDecSt 0 = Sum.inl initDecSt := by decide
    show read_response (0 :: (g' ++ s)) = _
    unfold read_response
    simp only [readLoop, hstep]
    exact ih (fun b hb => hg b (List.mem_cons_of_mem _ hb))

/-- Claim C5 amended: in `AwaitSync1` a byte other than `0xAB` leaves the
state machine in `AwaitSync1` with buffer and length untouched, but the byte
is added to the running checksum sum; consequently a frame is decoded
identically under a garbage prefix exactly when the prefix contributes
nothing to the sum, e.g. under any finite run of `0x00` bytes. -/
theorem claim_C5_amended :
    (∀ (l : Nat) (f : List Nat) (m b : Nat), b ≠ 0xAB →
      readStep ⟨0, l, f, m⟩ b = Sum.inl ⟨0, l, f, m + b⟩) ∧
    (∀ (g s : List Nat), (∀ b ∈ g, b = 0) →
      read_response (g ++ s) = read_response s) := by
  constructor
  · intro l f m b hb
    unfold readStep sumStep
    simp [hb]
  · exact read_response_zero_prefix

/-- Witness for the amended claim C5: a non-sync byte `1` keeps state 0 and
grows the sum, and an all-zero prefix leaves a decode unchanged. -/
theorem claim_C5_witness :
    readStep ⟨0, 0, [], 0⟩ 1 = Sum.inl ⟨0, 0, [], 0 + 1⟩ ∧
    read_response ([0, 0] ++ [0xAB, 0xCD, 2, 1, 122]) =
      read_response [0xAB, 0xCD, 2, 1, 122] :=
  ⟨claim_C5_amended.1 0 [] 0 1 (by decide),
   claim_C5_amended.2 [0, 0] [0xAB, 0xCD, 2, 1, 122] (by decide)⟩

/-- Every token that the HID batch loop processes to completion contributes
exactly one blocking read attempt, whatever the token is. -/
theorem hidCommandGo_reads {α : Type} (pn : String → Option α) :
    ∀ (ts : List String) (rs : List (List Nat)) (acc : List (Unit161dReading α))
      (ret : Option (List (Unit161dReading α))),
    (hidCommandGo pn ts rs acc).2 = HidOutcome.done ret →
    countReads (hidCommandGo pn ts rs acc).1 = ts.length := by
  intro ts
  induction ts with
  | nil => intro rs acc ret _; simp [hidCommandGo, countReads]
  | cons t ts' ih =>
    intro rs acc ret h
    cases htf : Uni161dCommand.tryFrom t with
    | error e =>
      have hg : (hidCommandGo pn (t :: ts') rs acc).2 = HidOutcome.failed e := by
        simp [hidCommandGo, htf]
      rw [hg] at h
      exact absurd h (by simp)
    | ok c =>
      cases rs with
      | nil =>
        have hg : (hidCommandGo pn (t :: ts') [] acc).2 = HidOutcome.blocked := by
          simp [hidCommandGo, htf]
        rw [hg] at h
        exact absurd h (by simp)
      | cons r rs' =>
        cases hr : read_response r with
        | ok payload =>
          have hg1 : (hidCommandGo pn (t :: ts') (r :: rs') acc).1 =
              HidEvent.write (write_with_length (uni161dFrame c.val)) ::
                HidEvent.readAttempt ::
                (hidCommandGo pn ts' rs'
                  (match Unit161dReading.parse pn payload with
                   | some m => acc ++ [m]
                   | none => acc)).1 := by
            simp [hidCommandGo, htf, hr]
          have hg2 : (hidCommandGo pn (t :: ts') (r :: rs') acc).2 =
              (hidCommandGo pn ts' rs'
                (match Unit161dReading.parse pn payload with
                 | some m => acc ++ [m]
                 | none => acc)).2 := by
            simp [hidCommandGo, htf, hr]
          rw [hg2] at h
          have := ih rs' _ ret h
          rw [hg1]
          simp only [countReads, List.countP_cons] at this ⊢
          simp [this]
        | err msg =>
          have hg : (hidCommandGo pn (t :: ts') (r :: rs') acc).2 =
              HidOutcome.failed (.hid msg) := by
            simp [hidCommandGo, htf, hr]
          rw [hg] at h
          exact absurd h (by simp)
        | panicked =>
          have hg : (hidCommandGo pn (t :: ts') (r :: rs') acc).2 =
              HidOutcome.failed (.general "index out of bounds") := by
            simp [hidCommandGo, htf, hr]
          rw [hg] at h
          exact absurd h (by simp)
        | incomplete =>
          have hg : (hidCommandGo pn (t :: ts') (r :: rs') acc).2 =
              HidOutcome.blocked := by
            simp [hidCommandGo, htf, hr]
          rw [hg] at h
          exact absurd h (by simp)

/-- Claim C2 is false on the code: `MinMax` is a valid non-`Measure` token of
the binary opcode dialect, yet the driver performs a blocking read for it (the
trace of its batch contains a read attempt). -/
theorem claim_C2_counterexample :
    Uni161dCommand.tryFrom "MinMax" = Except.ok Uni161dCommand.minMax ∧
    HidEvent.readAttempt ∈ (hidCommand noneNum ["MinMax"] [[0xAB, 0xCD, 2, 1, 122]]).1 := by
  decide

/-- Claim C2 amended: the HID batch loop has no `expects_response`
distinction; a batch that runs to completion performs exactly one blocking
read per token, for `Measure` and for every other token alike. -/
theorem claim_C2_amended {α : Type} (pn : String → Option α) (ts : List String)
    (rs : List (List Nat)) (ret : Option (List (Unit161dReading α)))
    (h : (hidCommand pn ts rs).2 = HidOutcome.done ret) :
    countReads (hidCommand pn ts rs).1 = ts.length :=
  hidCommandGo_reads pn ts rs [] ret h

/-- Witness for the amended claim C2: a two-token batch with a non-`Measure`
token performs two reads. -/
theorem claim_C2_witness :
    countReads (hidCommand noneNum ["Measure", "MinMax"]
      [[0xAB, 0xCD, 2, 1, 122], [0xAB, 0xCD, 2, 1, 122]]).1 = 2 :=
  claim_C2_amended noneNum ["Measure", "MinMax"]
    [[0xAB, 0xCD, 2, 1, 122], [0xAB, 0xCD, 2, 1, 122]] (some []) (by decide)

/-- Specification of the USB bulk batch loop: when it finishes, the returned
option is `none` exactly when nothing was read into the accumulator, and a
returned list is never empty. -/
theorem scpiCommandGo_spec :
    ∀ (ts : List String) (rs : List (List Nat)) (acc : List (List Nat))
      (ret : Option (List (List Nat))),
    (scpiCommandGo ts rs acc).2 = ScpiOutcome.ok ret →
    ((ret = none ↔ acc = [] ∧ ∀ e ∈ (scpiCommandGo ts rs acc).1, e.isRead = false) ∧
     (∀ l, ret = some l → l ≠ [])) := by
  intro ts
  induction ts with
  | nil =>
    intro rs acc ret h
    simp only [scpiCommandGo] at h ⊢
    by_cases hacc : acc = []
    · simp [hacc] at h
      simp [hacc, ← h]
    · simp [hacc] at h
      simp [hacc, ← h]
  | cons t ts' ih =>
    intro rs acc ret h
    by_cases hq : scpiUsbIsQuery t
    · cases rs with
      | nil =>
        have hg : (scpiCommandGo (t :: ts') [] acc).2 = ScpiOutcome.blocked := by
          simp [scpiCommandGo, hq]
        rw [hg] at h
        exact absurd h (by simp)
      | cons r rs' =>
        have hg1 : (scpiCommandGo (t :: ts') (r :: rs') acc).1 =
            ScpiEvent.write (scpiUsbEncode t) :: ScpiEvent.readData r ::
              (scpiCommandGo ts' rs' (acc ++ [r])).1 := by
          simp [scpiCommandGo, hq]
        have hg2 : (scpiCommandGo (t :: ts') (r :: rs') acc).2 =
            (scpiCommandGo ts' rs' (acc ++ [r])).2 := by
          simp [scpiCommandGo, hq]
        rw [hg2] at h
        obtain ⟨ih1, ih2⟩ := ih rs' (acc ++ [r]) ret h
        refine ⟨?_, ih2⟩
        rw [hg1]
        refine iff_of_false ?_ ?_
        · intro hn
          have := ih1.mp hn
          simp at this
        · rintro ⟨-, hall⟩
          have := hall (ScpiEvent.readData r) (by simp)
          simp [ScpiEvent.isRead] at this
    · have hg1 : (scpiCommandGo (t :: ts') rs acc).1 =
          ScpiEvent.write (scpiUsbEncode t) :: (scpiCommandGo ts' rs acc).1 := by
        simp [scpiCommandGo, hq]
      have hg2 : (scpiCommandGo (t :: ts') rs acc).2 =
          (scpiCommandGo ts' rs acc).2 := by
        simp [scpiCommandGo, hq]
      rw [hg2] at h
      obtain ⟨ih1, ih2⟩ := ih rs acc ret h
      refine ⟨?_, ih2⟩
      rw [hg1, ih1]
      simp [List.forall_mem_cons, ScpiEvent.isRead]

/-- The HID batch loop, when it completes, always returns `some` list. -/
theorem hidCommandGo_some {α : Type} (pn : String → Option α) :
    ∀ (ts : List String) (rs : List (List Nat)) (acc : List (Unit161dReading α))
      (ret : Option (List (Unit161dReading α))),
    (hidCommandGo pn ts rs acc).2 = HidOutcome.done ret → ∃ l, ret = some l := by
  intro ts
  induction ts with
  | nil =>
    intro rs acc ret h
    simp only [hidCommandGo] at h
    exact ⟨acc, by simpa using h.symm⟩
  | cons t ts' ih =>
    intro rs acc ret h
    cases htf : Uni161dCommand.tryFrom t with
    | error e =>
      have hg : (hidCommandGo pn (t :: ts') rs acc).2 = HidOutcome.failed e := by
        simp [hidCommandGo, htf]
      rw [hg] at h
      exact absurd h (by simp)
    | ok c =>
      cases rs with
      | nil =>
        have hg : (hidCommandGo pn (t :: ts') [] acc).2 = HidOutcome.blocked := by
          simp [hidCommandGo, htf]
        rw [hg] at h
        exact absurd h (by simp)
      | cons r rs' =>
        cases hr : read_response r with
        | ok payload =>
          have hg2 : (hidCommandGo pn (t :: ts') (r :: rs') acc).2 =
              (hidCommandGo pn ts' rs'
                (match Unit161dReading.parse pn payload with
                 | some m => acc ++ [m]
                 | none => acc)).2 := by
            simp [hidCommandGo, htf, hr]
          rw [hg2] at h
          exact ih rs' _ ret h
        | err msg =>
          have hg : (hidCommandGo pn (t :: ts') (r :: rs') acc).2 =
              HidOutcome.failed (.hid msg) := by
            simp [hidCommandGo, htf, hr]
          rw [hg] at h
          exact absurd h (by simp)
        | panicked =>
          have hg : (hidCommandGo pn (t :: ts') (r :: rs') acc).2 =
              HidOutcome.failed (.general "index out of bounds") := by
            simp [hidCommandGo, htf, hr]
          rw [hg] at h
          exact absurd h (by simp)
        | incomplete =>
          have hg : (hidCommandGo pn (t :: ts') (r :: rs') acc).2 =
              HidOutcome.blocked := by
            simp [hidCommandGo, htf, hr]
          rw [hg] at h
          exact absurd h (by simp)

/-- Claim C3 is false on the code: this HID batch completes without error and
produces zero readings, yet `Unit161dHid::command` returns `Some` of an empty
list instead of `None`. -/
theorem claim_C3_counterexample :
    (hidCommand noneNum ["MinMax"] [[0xAB, 0xCD, 2, 1, 122]]).2 =
      HidOutcome.done (some ([] : List (Unit161dReading Unit))) := by decide

/-- Claim C3 amended: the USB bulk driver `ScpiUsb::command` returns `None`
exactly when its batch read nothing and never returns `Some` of an empty
list; the HID driver `Unit161dHid::command`, however, always returns `Some`
of the collected list, which is empty when the batch produced no reading. -/
theorem claim_C3_amended :
    (∀ (ts : List String) (rs : List (List Nat)) (ret : Option (List (List Nat))),
      (scpiCommand ts rs).2 = ScpiOutcome.ok ret →
      ((ret = none ↔ ∀ e ∈ (scpiCommand ts rs).1, e.isRead = false) ∧
       (∀ l, ret = some l → l ≠ []))) ∧
    (∀ (α : Type) (pn : String → Option α) (ts : List String) (rs : List (List Nat))
      (ret : Option (List (Unit161dReading α))),
      (hidCommand pn ts rs).2 = HidOutcome.done ret → ∃ l, ret = some l) := by
  constructor
  · intro ts rs ret h
    obtain ⟨h1, h2⟩ := scpiCommandGo_spec ts rs [] ret h
    refine ⟨?_, h2⟩
    rw [h1]
    simp [scpiCommand]
  · intro α pn ts rs ret h
    exact hidCommandGo_some pn ts rs [] ret h

/-- Witness for the amended claim C3: a write-only SCPI batch returns `None`,
and a zero-reading HID batch still returns `some`. -/
theorem claim_C3_witness :
    (((none : Option (List (List Nat))) = none ↔
        ∀ e ∈ (scpiCommand ["*RST"] []).1, e.isRead = false) ∧
      (∀ l, (none : Option (List (List Nat))) = some l → l ≠ [])) ∧
    (∃ l, (some ([] : List (Unit161dReading Unit))) = some l) :=
  ⟨claim_C3_amended.1 ["*RST"] [] none (by decide),
   claim_C3_amended.2 Unit noneNum ["MinMax"] [[0xAB, 0xCD, 2, 1, 122]]
     (some []) (by decide)⟩

/-- Claim C4 is false on the cited `ScpiRawCommand` dialect type: a token
already ending in a newline still gets another newline pushed by
`to_command`, and a token containing (but not ending with) a question mark is
not marked as a query by `is_query`. -/
theorem claim_C4_counterexample :
    strEndsWithChar "A\n" '\n' = true ∧ scpiRawToCommand "A\n" ≠ "A\n" ∧
    strContainsChar "A?B" '?' = true ∧ scpiRawIsQuery "A?B" = false := by decide

/-- Claim C4 amended: the encoding inlined in `ScpiUsb::command` appends the
newline exactly when the token lacks one and reads back exactly when the token
contains a question mark anywhere, as claimed; the standalone `ScpiRawCommand`
dialect, however, always appends a newline and flags a query only when the
token ends with the question mark. -/
theorem claim_C4_amended :
    (∀ t : String, strEndsWithChar t '\n' = false → scpiUsbEncode t = t ++ "\n") ∧
    (∀ t : String, strEndsWithChar t '\n' = true → scpiUsbEncode t = t) ∧
    (∀ t : String, scpiUsbIsQuery t = strContainsChar t '?') ∧
    (∀ t : String, scpiRawToCommand t = t ++ "\n") ∧
    (∀ t : String, scpiRawIsQuery t = strEndsWithChar t '?') := by
  refine ⟨?_, ?_, fun t => rfl, fun t => rfl, fun t => rfl⟩
  · intro t h
    simp [scpiUsbEncode, h]
  · intro t h
    simp [scpiUsbEncode, h]

/-- Witness for the amended claim C4 at concrete tokens. -/
theorem claim_C4_witness :
    scpiUsbEncode "A" = "A" ++ "\n" ∧ scpiUsbEncode "A\n" = "A\n" ∧
    scpiUsbIsQuery "A?B" = strContainsChar "A?B" '?' ∧
    scpiRawToCommand "A\n" = "A\n" ++ "\n" ∧
    scpiRawIsQuery "A?B" = strEndsWithChar "A?B" '?' :=
  ⟨claim_C4_amended.1 "A" (by decide), claim_C4_amended.2.1 "A\n" (by decide),
   claim_C4_amended.2.2.1 "A?B", claim_C4_amended.2.2.2.1 "A\n",
   claim_C4_amended.2.2.2.2 "A?B"⟩

/-- Claim C6: for every valid binary-opcode token with opcode value `c`, the
bytes handed to the HID write are the 1-byte length prefix 6 followed by
`[0xAB, 0xCD, 0x03, low(c), high(low(c) + 379), low(low(c) + 379)]` (since
every valid opcode fits a byte, the code's add-then-split agrees with the
claim's truncate-then-add). -/
theorem claim_C6 (t : String) (c : Uni161dCommand)
    (h : Uni161dCommand.tryFrom t = Except.ok c) :
    write_with_length (uni161dFrame c.val) =
      [6, 0xAB, 0xCD, 0x03, c.val % 256,
       ((c.val % 256 + 379) / 256) % 256, (c.val % 256 + 379) % 256] := by
  cases c <;> decide

/-- Witness for claim C6 at the `Measure` token. -/
theorem claim_C6_witness :
    write_with_length (uni161dFrame Uni161dCommand.measure.val) =
      [6, 0xAB, 0xCD, 0x03, Uni161dCommand.measure.val % 256,
       ((Uni161dCommand.measure.val % 256 + 379) / 256) % 256,
       (Uni161dCommand.measure.val % 256 + 379) % 256] :=
  claim_C6 "Measure" Uni161dCommand.measure (by decide)

/-- Claim C7: the four specified parse-then-serialize round-trips hold
exactly, and in general an `Apply` command re-serializes with only the
supplied optional fields present, each preceded by its depended-on field's
separator (space before the frequency, comma-space before amplitude and
offset). -/
theorem claim_C7 :
    (peaktechTryFrom "Apply:Sin 10kHz, 1.2, 0.5").map PCmd.toCommandString =
      Except.ok "Apply:Sin 10kHz, 1.2, 0.5\n" ∧
    (peaktechTryFrom "Apply:Squ").map PCmd.toCommandString = Except.ok "Apply:Squ\n" ∧
    (peaktechTryFrom "Reset").map PCmd.toCommandString = Except.ok "*RST\n" ∧
    (peaktechTryFrom "Raw:Apply:Sin 10kHz, 1.2, 0.5").map PCmd.toCommandString =
      Except.ok "Apply:Sin 10kHz, 1.2, 0.5\n" ∧
    (∀ a : ApplyCmd, PCmd.toCommandString (PCmd.apply a) =
      "Apply:" ++ a.waveform.name ++ optPart " " a.frequency ++
        optPart ", " a.amplitude ++ optPart ", " a.offset ++ "\n") := by
  refine ⟨by decide, by decide, by decide, by decide, ?_⟩
  intro a
  obtain ⟨w, f, x, o⟩ := a
  simp only [PCmd.toCommandString, applyToString]
  cases f <;> cases x <;> cases o <;>
    simp [optPart, String.append_empty]

/-- Every error `Peaktech4055mvCommandApply::parse` raises is a
`CommandError`. -/
theorem parseApply_error_command (s : String) (e : AppError)
    (h : parseApply s = Except.error e) : ∃ m, e = AppError.command m := by
  simp only [parseApply] at h
  cases hw : waveformOfName (String.mk (applyWaveName s)) with
  | none =>
    rw [hw] at h
    exact ⟨_, by injection h with h2; exact h2.symm⟩
  | some w =>
    rw [hw] at h
    split_ifs at h <;>
      exact ⟨_, by injection h with h2; exact h2.symm⟩

/-- Every error of the Peaktech token dispatcher is a `CommandError`. -/
theorem peaktechTryFrom_error_command (t : String) (e : AppError)
    (h : peaktechTryFrom t = Except.error e) : ∃ m, e = AppError.command m := by
  unfold peaktechTryFrom at h
  by_cases hs : strStartsWith t "Apply:"
  · simp only [hs, if_pos] at h
    cases hp : parseApply t with
    | ok c => rw [hp] at h; cases h
    | error e2 =>
      rw [hp] at h
      simp only [Except.map, Except.error.injEq] at h
      exact h ▸ parseApply_error_command t e2 hp
  · simp only [hs] at h
    by_cases ht : t = "Reset" <;> simp [ht] at h

/-- A malformed token anywhere in a batch makes the pre-parse collect fail. -/
theorem collectResults_error_of_mem (ts : List String) (t : String)
    (hmem : t ∈ ts) (e : AppError) (he : peaktechTryFrom t = Except.error e) :
    ∃ e', collectResults ts = Except.error e' := by
  induction ts with
  | nil => cases hmem
  | cons a as ih =>
    rcases List.mem_cons.mp hmem with rfl | hmem'
    · exact ⟨e, by simp only [collectResults, he]; rfl⟩
    · cases hfa : peaktechTryFrom a with
      | error e2 => exact ⟨e2, by simp only [collectResults, hfa]; rfl⟩
      | ok c =>
        obtain ⟨e', he'⟩ := ih hmem'
        exact ⟨e', by simp only [collectResults, hfa, he']; rfl⟩

/-- Conversely, a failed collect names an error raised by one of its
tokens. -/
theorem collectResults_error_src (ts : List String) (e : AppError)
    (h : collectResults ts = Except.error e) :
    ∃ t ∈ ts, peaktechTryFrom t = Except.error e := by
  induction ts with
  | nil => exact Except.noConfusion h
  | cons a as ih =>
    cases hfa : peaktechTryFrom a with
    | error e2 =>
      have hc : collectResults (a :: as) = Except.error e2 := by
        simp only [collectResults, hfa]; rfl
      have h2 : e2 = e := by injection hc.symm.trans h
      exact ⟨a, by simp, h2 ▸ hfa⟩
    | ok c =>
      cases hcs : collectResults as with
      | error e3 =>
        have hc : collectResults (a :: as) = Except.error e3 := by
          simp only [collectResults, hfa, hcs]; rfl
        have h3 : e3 = e := by injection hc.symm.trans h
        obtain ⟨t, ht, het⟩ := ih (h3 ▸ hcs)
        exact ⟨t, List.mem_cons_of_mem a ht, het⟩
      | ok cs =>
        have hc : collectResults (a :: as) = Except.ok (c :: cs) := by
          simp only [collectResults, hfa, hcs]; rfl
        exact Except.noConfusion (hc.symm.trans h)

/-- An `Apply:`-prefixed token is dispatched to the Apply parser, whose error
propagates unchanged. -/
theorem peaktechTryFrom_apply_error (s : String)
    (hs : strStartsWith s "Apply:" = true) (m : String)
    (h : parseApply s = Except.error (AppError.command m)) :
    peaktechTryFrom s = Except.error (AppError.command m) := by
  unfold peaktechTryFrom
  rw [if_pos hs, h]
  rfl

/-- An unrecognized waveform name fails the Apply parse. -/
theorem parseApply_err_unknown (s : String)
    (hw : waveformOfName (String.mk (applyWaveName s)) = none) :
    parseApply s =
      Except.error (AppError.command
        ("Unknown waveform: " ++ String.mk (applyWaveName s))) := by
  simp only [parseApply]
  rw [hw]

/-- More than three comma-separated pieces fail the Apply parse. -/
theorem parseApply_err_many (s : String) (w : Waveform)
    (hw : waveformOfName (String.mk (applyWaveName s)) = some w)
    (h3 : 3 < (applyParts s).length) :
    parseApply s =
      Except.error (AppError.command "Too many parameters for Apply command") := by
  simp [parseApply, hw, h3]

/-- A supplied amplitude without a frequency fails the Apply parse. -/
theorem parseApply_err_amp (s : String)
    (ha : (applyAmplitude s).isSome = true) (hf : applyFrequency s = none) :
    ∃ m, parseApply s = Except.error (AppError.command m) := by
  cases hw : waveformOfName (String.mk (applyWaveName s)) with
  | none =>
    exact ⟨"Unknown waveform: " ++ String.mk (applyWaveName s),
      by simp [parseApply, hw]⟩
  | some w =>
    by_cases h3 : 3 < (applyParts s).length
    · exact ⟨"Too many parameters for Apply command", by simp [parseApply, hw, h3]⟩
    · by_cases hwe : applyWaveName s = []
      · rw [hwe] at hw
        have hn : waveformOfName (String.mk []) = none := by decide
        rw [hn] at hw
        exact Option.noConfusion hw
      · exact ⟨"Frequency cannot be empty if provided",
          by simp [parseApply, hw, h3, hwe, ha, hf]⟩

/-- Claim C8: the token `Apply:Sin, 10kHz,,` is rejected with a
`CommandError`; in general an `Apply` token with an unknown waveform name,
with more than three comma-separated pieces, or with an amplitude supplied
while the frequency is absent, is rejected with a `CommandError`; and a batch
containing any rejected token makes `Peaktech4055mv::command` fail, which in
this embedding means no write trace exists, mirroring that the source parses
all tokens before opening the device. -/
theorem claim_C8 :
    peaktechTryFrom "Apply:Sin, 10kHz,," =
      Except.error (AppError.command "Too many parameters for Apply command") ∧
    (∀ s : String, strStartsWith s "Apply:" = true →
      waveformOfName (String.mk (applyWaveName s)) = none →
      ∃ m, peaktechTryFrom s = Except.error (AppError.command m)) ∧
    (∀ s : String, strStartsWith s "Apply:" = true →
      3 < (applyParts s).length →
      ∃ m, peaktechTryFrom s = Except.error (AppError.command m)) ∧
    (∀ s : String, strStartsWith s "Apply:" = true →
      (applyAmplitude s).isSome = true → applyFrequency s = none →
      ∃ m, peaktechTryFrom s = Except.error (AppError.command m)) ∧
    (∀ (ts : List String) (t : String), t ∈ ts →
      (∃ e, peaktechTryFrom t = Except.error e) →
      ∃ e', peaktechCommand ts = Except.error e') := by
  refine ⟨by decide, ?_, ?_, ?_, ?_⟩
  · intro s hs hw
    exact ⟨_, peaktechTryFrom_apply_error s hs _ (parseApply_err_unknown s hw)⟩
  · intro s hs h3
    cases hw : waveformOfName (String.mk (applyWaveName s)) with
    | none => exact ⟨_, peaktechTryFrom_apply_error s hs _ (parseApply_err_unknown s hw)⟩
    | some w => exact ⟨_, peaktechTryFrom_apply_error s hs _ (parseApply_err_many s w hw h3)⟩
  · intro s hs ha hf
    obtain ⟨m, hm⟩ := parseApply_err_amp s ha hf
    exact ⟨m, peaktechTryFrom_apply_error s hs m hm⟩
  · rintro ts t hmem ⟨e, he⟩
    obtain ⟨e', he'⟩ := collectResults_error_of_mem ts t hmem e he
    exact ⟨e', by simp only [peaktechCommand, he']; rfl⟩

/-- Witness for claim C8 at concrete malformed tokens. -/
theorem claim_C8_witness :
    peaktechTryFrom "Apply:Sin, 10kHz,," =
      Except.error (AppError.command "Too many parameters for Apply command") ∧
    (∃ m, peaktechTryFrom "Apply:Bogus" = Except.error (AppError.command m)) ∧
    (∃ m, peaktechTryFrom "Apply:Sin,1,2,3" = Except.error (AppError.command m)) ∧
    (∃ m, peaktechTryFrom "Apply:Sin,1.2" = Except.error (AppError.command m)) ∧
    (∃ e', peaktechCommand ["Apply:Sin, 10kHz,,"] = Except.error e') :=
  ⟨claim_C8.1,
   claim_C8.2.1 "Apply:Bogus" (by decide) (by decide),
   claim_C8.2.2.1 "Apply:Sin,1,2,3" (by decide) (by decide),
   claim_C8.2.2.2.1 "Apply:Sin,1.2" (by decide) (by decide) (by decide),
   claim_C8.2.2.2.2 ["Apply:Sin, 10kHz,,"] "Apply:Sin, 10kHz,," (by decide)
     ⟨AppError.command "Too many parameters for Apply command", by decide⟩⟩

/-- Claim C10: the waveform-generator driver parses the whole batch before
any device interaction, so one malformed token anywhere in the batch yields a
`CommandError` for the batch and no write trace at all — also for the valid
tokens that precede it. -/
theorem claim_C10 (ts : List String) (t : String) (hmem : t ∈ ts) (e : AppError)
    (he : peaktechTryFrom t = Except.error e) :
    ∃ m, peaktechCommand ts = Except.error (AppError.command m) := by
  obtain ⟨e', he'⟩ := collectResults_error_of_mem ts t hmem e he
  obtain ⟨t2, _, het2⟩ := collectResults_error_src ts e' he'
  obtain ⟨m, hm⟩ := peaktechTryFrom_error_command t2 e' het2
  refine ⟨m, ?_⟩
  rw [hm] at he'
  simp only [peaktechCommand, he']
  rfl

/-- Witness for claim C10: a batch whose first token is valid and whose
second is malformed fails as a whole. -/
theorem claim_C10_witness :
    ∃ m, peaktechCommand ["Reset", "Apply:Sin, 10kHz,,"] =
      Except.error (AppError.command m) :=
  claim_C10 ["Reset", "Apply:Sin, 10kHz,,"] "Apply:Sin, 10kHz,," (by decide)
    (AppError.command "Too many parameters for Apply command") (by decide)

/-- Claim C9: for a response of at least 14 bytes, a trimmed display value
among the overload sentinels makes the decoded reading report `overload` with
no numeric value, and one among the NCV sentinels makes it report `ncv` with
no numeric value — for every choice of the numeric parser. -/
theorem claim_C9 {α : Type} (pn : String → Option α) (bytes : List Nat)
    (r : Unit161dReading α) (hlen : 14 ≤ bytes.length)
    (h : Unit161dReading.parse pn bytes = some r) :
    (r.display_value ∈ OVERLOAD → r.overload = true ∧ r.decimal_value = none) ∧
    (r.display_value ∈ NCV → r.ncv = true ∧ r.decimal_value = none) := by
  unfold Unit161dReading.parse at h
  rw [if_neg (by omega)] at h
  injection h with h2
  subst h2
  dsimp only
  constructor
  · intro hmem
    have hc : OVERLOAD.contains _ = true := List.elem_eq_true_of_mem hmem
    refine ⟨hc, ?_⟩
    rw [hc]
    simp
  · intro hmem
    have hc : NCV.contains _ = true := List.elem_eq_true_of_mem hmem
    refine ⟨hc, ?_⟩
    rw [hc]
    simp

/-- Witness for claim C9 at an overload display and at an NCV display. -/
theorem claim_C9_witness :
    (overloadReading.overload = true ∧ overloadReading.decimal_value = none) ∧
    (ncvReading.ncv = true ∧ ncvReading.decimal_value = none) :=
  ⟨(claim_C9 noneNum overloadBytes overloadReading (by decide) (by decide)).1
      (by decide),
   (claim_C9 noneNum ncvBytes ncvReading (by decide) (by decide)).2 (by decide)⟩
